import Mathlib

/-!
Verification of the platform-variant resolution and download-orchestration
component of a marketplace extension downloader.

The JavaScript source is embedded shallowly:
pure page queries become Lean functions over an explicit page model,
the promise-based download driver becomes a function from the outcomes of
its two awaited futures to an effect trace, and the per-package orchestrator
becomes a function producing a trace of warnings, console logs, download
clicks, saved paths and a final `Except` outcome.
-/

namespace VsixDl

/-- JavaScript `toLocaleLowerCase` modelled as a per-character lower-casing
of the string. -/
def jsToLower (s : String) : String := ⟨s.data.map Char.toLower⟩

/-- JavaScript `String.prototype.includes`: substring containment on the
underlying character sequences. -/
def jsIncludes (s sub : String) : Bool := decide (sub.toList <:+: s.toList)

/-- Model of `_hasMultiplePlatforms`: the page query
`page.locator(DL_CHV_SELECTOR).count().then(x => x == 1)` reduced to the
chevron count the locator would report.  True exactly when that count is
one. -/
def _hasMultiplePlatforms (chevronCount : Nat) : Bool := chevronCount == 1

/-- Body of `_hasSpecifiedPlatforms` once the capability text is present and
lower-cased: the `universal` marker short-circuits to true, otherwise
`matchAll` selects `every`/`some` substring containment. -/
def hasSpecifiedPlatformsLower (text : String) (platforms : List String)
    (matchAll : Bool) : Bool :=
  if jsIncludes text "universal" then true
  else if matchAll then platforms.all fun p => jsIncludes text p
  else platforms.any fun p => jsIncludes text p

/-- Model of `_hasSpecifiedPlatforms`: the capability-list text is the
`textContent` of the capabilities selector (`Option String`, `none` when the
element or its text is missing), lower-cased before every check. -/
def _hasSpecifiedPlatforms (capText : Option String) (platforms : List String)
    (matchAll : Bool) : Bool :=
  match capText.map jsToLower with
  | none => false
  | some availablePlatforms =>
      hasSpecifiedPlatformsLower availablePlatforms platforms matchAll

/-- Source class `PlatformTask`: a dropdown position index paired with the
lower-cased platform name found there. -/
structure PlatformTask where
  selectorIdx : Nat
  extName : String
deriving DecidableEq, Repr

/-- Index-carrying loop of `MultiPlatform.#computePlatformTaskList`: walk the
dropdown entries from position `i`, keep an entry whose text is defined and
whose lower-cased text is an exact member of the whitelist. -/
def computePlatformTaskListAux (whitelistPlatforms : List String) :
    Nat → List (Option String) → List PlatformTask
  | _, [] => []
  | i, e :: rest =>
    match e.map jsToLower with
    | some platformName =>
        if whitelistPlatforms.contains platformName then
          PlatformTask.mk i platformName ::
            computePlatformTaskListAux whitelistPlatforms (i + 1) rest
        else computePlatformTaskListAux whitelistPlatforms (i + 1) rest
    | none => computePlatformTaskListAux whitelistPlatforms (i + 1) rest

/-- Model of `MultiPlatform.#computePlatformTaskList`: `entries` is the list
of `textContent` results of the variant-name locator in DOM order. -/
def computePlatformTaskList (whitelistPlatforms : List String)
    (entries : List (Option String)) : List PlatformTask :=
  computePlatformTaskListAux whitelistPlatforms 0 entries

/-- Errors a browser-driving step can surface.  The proofs only need to know
which step failed, so a small closed inductive suffices. -/
inductive Err
  | timeout
  | navErr
  | saveErr
  | assertionFailed
  | other (msg : String)
deriving DecidableEq, Repr

/-- A resolved playwright download handle: the server-suggested filename and
the outcome its `saveAs` call would produce. -/
structure Download where
  suggestedFilename : String
  saveResult : Except Err Unit
deriving Repr

/-- Environment of one `_clickAndDl` invocation: the outcome of the awaited
`page.waitForEvent("download")` future and the outcome of the awaited
`locator.click({timeout})` future. -/
structure DlAttempt where
  event : Except Err Download
  click : Except Err Unit
deriving Repr

/-- `Promise.all` on the two-element array `[event, click]`: resolves with
both values only when both resolve; rejects when either rejects. -/
def promiseAll2 {α β : Type} (a : Except Err α) (b : Except Err β) :
    Except Err (α × β) :=
  match a, b with
  | .ok x, .ok y => .ok (x, y)
  | .error e, _ => .error e
  | .ok _, .error e => .error e

/-- `path.join` on a directory and a separator-free filename. -/
def pathJoin (dir file : String) : String := dir ++ "/" ++ file

/-- Effect trace of one `_clickAndDl` invocation. -/
structure ClickDlOut where
  /-- `console.error` lines emitted. -/
  logs : List String
  /-- Paths successfully written by `saveAs`. -/
  saved : List String
  /-- Whether control reached the save step at all. -/
  saveAttempted : Bool
  /-- Whether `downloadResp.delete()` was executed. -/
  deleted : Bool
  /-- The value or rethrown rejection of the whole invocation. -/
  result : Except Err Unit
deriving Repr

/-- Model of `_clickAndDl`: `Promise.all` joins the download event and the
click; a rejection is logged with the friendly name and rethrown before the
save step; otherwise the stream is saved to the joined path and the handle
deleted.  `saveAs` and `delete` are sequential awaits with no `finally`, so
a failing `saveAs` rethrows without reaching `delete`. -/
def _clickAndDl (dlName : String) (att : DlAttempt) (outputDir : String) :
    ClickDlOut :=
  match promiseAll2 att.event att.click with
  | .error err =>
      { logs := ["Failed on downloading " ++ dlName]
        saved := [], saveAttempted := false, deleted := false
        result := .error err }
  | .ok (downloadResp, _) =>
      let savePath := pathJoin outputDir downloadResp.suggestedFilename
      match downloadResp.saveResult with
      | .error err =>
          { logs := [], saved := [], saveAttempted := true, deleted := false
            result := .error err }
      | .ok _ =>
          { logs := [], saved := [savePath], saveAttempted := true
            deleted := true, result := .ok () }

/-- A rendered extension page, reduced to the observations the component
makes of it: the chevron count deciding single versus multi build, the
capability-list text, the dropdown entry texts in DOM order, and whether
the variant dropdown is (or becomes, after the expanding click) present —
the condition `MultiPlatform.#ensureDropdownExists` asserts. -/
structure PageModel where
  chevronCount : Nat
  capText : Option String
  entries : List (Option String)
  dropdownOk : Bool
deriving Repr

/-- A click that initiates a download: the primary download button in the
single-build path, or the `nth i` variant download icon in the multi-build
path. -/
inductive ClickTarget
  | primary
  | variant (i : Nat)
deriving DecidableEq, Repr

/-- Effect trace of one per-extension run of `dlExt`. -/
structure Trace where
  /-- `console.warn` lines emitted. -/
  warnings : List String
  /-- `console.error` lines emitted. -/
  logs : List String
  /-- Download-initiating clicks attempted, in order. -/
  clicks : List ClickTarget
  /-- Paths successfully written by `saveAs`, in order. -/
  saved : List String
  /-- The value or first uncaught rejection of the run. -/
  result : Except Err Unit
deriving Repr

/-- The `console.warn` text of `SinglePlatform.run` when the desired
platforms are missing. -/
def singleSkipMsg (extId : String) : String :=
  "\nSkipping " ++ extId ++ " as it does not have the desired platform[s]\n"

/-- The `console.warn` text of `MultiPlatform.init` when the desired
platforms are missing. -/
def multiSkipMsg (extId : String) : String :=
  "Skipping " ++ extId ++ " as it does not have the desired platform[s]"

/-- Model of `SinglePlatform.run`: ALL-policy capability check, then one
`_clickAndDl` against the primary download button.  `att` is the outcome
environment of that single download attempt. -/
def SinglePlatformRun (page : PageModel) (att : DlAttempt)
    (platforms : List String) (extId outputDir : String) : Trace :=
  if !(_hasSpecifiedPlatforms page.capText platforms true) then
    { warnings := [singleSkipMsg extId], logs := [], clicks := []
      saved := [], result := .ok () }
  else
    let o := _clickAndDl "-" att outputDir
    { warnings := [], logs := o.logs, clicks := [ClickTarget.primary]
      saved := o.saved, result := o.result }

/-- Loop body of `MultiPlatform.run`: drive `_clickAndDl` once per task in
list order, re-opening the dropdown before each; a rejection aborts the
loop and propagates, leaving the remaining tasks unattempted.  `env k`
supplies the outcome environment of the k-th download attempt. -/
def MultiPlatformRunLoop (env : Nat → DlAttempt) (outputDir : String) :
    Nat → List PlatformTask → Trace
  | _, [] => { warnings := [], logs := [], clicks := [], saved := []
               result := .ok () }
  | k, task :: rest =>
    let o := _clickAndDl task.extName (env k) outputDir
    match o.result with
    | .error e =>
        { warnings := [], logs := o.logs
          clicks := [ClickTarget.variant task.selectorIdx]
          saved := o.saved, result := .error e }
    | .ok _ =>
        let r := MultiPlatformRunLoop env outputDir (k + 1) rest
        { warnings := r.warnings, logs := o.logs ++ r.logs
          clicks := ClickTarget.variant task.selectorIdx :: r.clicks
          saved := o.saved ++ r.saved, result := r.result }

/-- Model of `MultiPlatform.init` followed by `run`: ANY-policy capability
check (skip with a warning when unsatisfied), then the dropdown assertion of
`#ensureDropdownExists`, then the task list is computed and each task
downloaded in order. -/
def MultiPlatformInitRun (page : PageModel) (env : Nat → DlAttempt)
    (platforms : List String) (extId outputDir : String) : Trace :=
  if !(_hasSpecifiedPlatforms page.capText platforms false) then
    { warnings := [multiSkipMsg extId], logs := [], clicks := []
      saved := [], result := .ok () }
  else if !page.dropdownOk then
    { warnings := [], logs := [], clicks := [], saved := []
      result := .error .assertionFailed }
  else
    MultiPlatformRunLoop env outputDir 0
      (computePlatformTaskList platforms page.entries)

/-- Model of the per-extension entry point `dlExt` (after a successful
navigation): dispatch on `_hasMultiplePlatforms`. -/
def dlExt (page : PageModel) (env : Nat → DlAttempt)
    (platforms : List String) (extId outputDir : String) : Trace :=
  if _hasMultiplePlatforms page.chevronCount then
    MultiPlatformInitRun page env platforms extId outputDir
  else
    SinglePlatformRun page (env 0) platforms extId outputDir

/-- The `PLATFORMS` table of `src/platforms.js`: platform code to display
name. -/
def PLATFORMS : List (String × String) :=
  [("win32-x64", "Windows x64"),
   ("win32-ia32", "Windows ia32"),
   ("win32-arm64", "Windows ARM"),
   ("linux-x64", "Linux x64"),
   ("linux-arm64", "Linux ARM64"),
   ("linux-armhf", "Linux ARM32"),
   ("darwin-x64", "macOS Intel"),
   ("darwin-arm64", "macOS Apple Silicon"),
   ("alpine-x64", "Alpine Linux 64 bit"),
   ("web", "Web"),
   ("alpine-arm64", "Alpine Linux ARM64")]

/-- The platform post-processing of `_parseCmdArgs`:
`argv.platform = argv.platform.map(x => PLATFORMS[x].toLocaleLowerCase())`.
The yargs `choices` constraint guarantees every supplied code is a key of
`PLATFORMS`; table misses are dropped by `filterMap` but cannot occur under
that constraint. -/
def _parseCmdArgsPlatform (codes : List String) : List String :=
  codes.filterMap fun c => (PLATFORMS.lookup c).map jsToLower

/-- Effect trace of the extension loop of `_setupBrowserAndBegin`. -/
structure BatchTrace where
  /-- Extension ids whose download was attempted, in order. -/
  attempted : List String
  /-- `console.error` lines of the top-level catch. -/
  logs : List String
  /-- Overall outcome of the loop. -/
  result : Except Err Unit
deriving Repr

/-- Model of the extension loop of `_setupBrowserAndBegin`: each extension
is downloaded in turn; the catch attached to a failing download logs
`Error on <id>` and rethrows, so the loop stops at the first failure.
`res` gives each extension's download outcome. -/
def setupBrowserLoop (res : String → Except Err Unit) :
    List String → BatchTrace
  | [] => { attempted := [], logs := [], result := .ok () }
  | extId :: rest =>
    match res extId with
    | .error e =>
        { attempted := [extId], logs := ["\nError on " ++ extId]
          result := .error e }
    | .ok _ =>
        let r := setupBrowserLoop res rest
        { attempted := extId :: r.attempted, logs := r.logs
          result := r.result }

end VsixDl

namespace VsixDl

/-- C9: `_hasMultiplePlatforms` is true iff the count of expand-variants
chevron affordances is exactly one; zero and two-or-more give false. -/
theorem hasMultiplePlatforms_iff_count_one (chevronCount : Nat) :
    _hasMultiplePlatforms chevronCount = true ↔ chevronCount = 1 := by
  simp [_hasMultiplePlatforms]

/-- C1: `_hasSpecifiedPlatforms` evaluates in order: absent text gives
false; lower-cased text containing the substring `universal` gives true
regardless of the requested set and the policy; otherwise `matchAll = true`
demands every requested platform be a substring of the lower-cased text and
`matchAll = false` demands at least one. -/
theorem hasSpecifiedPlatforms_spec (platforms : List String)
    (matchAll : Bool) :
    _hasSpecifiedPlatforms none platforms matchAll = false ∧
    (∀ t : String, jsIncludes (jsToLower t) "universal" = true →
      _hasSpecifiedPlatforms (some t) platforms matchAll = true) ∧
    (∀ t : String, jsIncludes (jsToLower t) "universal" = false →
      (_hasSpecifiedPlatforms (some t) platforms true = true ↔
        ∀ p ∈ platforms, p.toList <:+: (jsToLower t).toList) ∧
      (_hasSpecifiedPlatforms (some t) platforms false = true ↔
        ∃ p ∈ platforms, p.toList <:+: (jsToLower t).toList)) := by
  refine ⟨rfl, ?_, ?_⟩
  · intro t h
    simp [_hasSpecifiedPlatforms, hasSpecifiedPlatformsLower, h]
  · intro t h
    have e1 : _hasSpecifiedPlatforms (some t) platforms true =
        hasSpecifiedPlatformsLower (jsToLower t) platforms true := rfl
    have e2 : _hasSpecifiedPlatforms (some t) platforms false =
        hasSpecifiedPlatformsLower (jsToLower t) platforms false := rfl
    rw [e1, e2]
    unfold hasSpecifiedPlatformsLower
    rw [h]
    simp [jsIncludes]

/-- Concrete instantiation of `hasSpecifiedPlatforms_spec`: a capability
text carrying the `Universal` marker satisfies an arbitrary request, absent
text satisfies nothing, and a lone substring match passes the ANY policy. -/
theorem hasSpecifiedPlatforms_spec_witness :
    _hasSpecifiedPlatforms (some "Universal build") ["windows x64"] false
        = true ∧
    _hasSpecifiedPlatforms none ["windows x64"] true = false ∧
    (_hasSpecifiedPlatforms (some "for Windows x64 only") ["windows x64"]
        false = true ↔
      ∃ p ∈ ["windows x64"],
        p.toList <:+: (jsToLower "for Windows x64 only").toList) :=
  ⟨(hasSpecifiedPlatforms_spec ["windows x64"] false).2.1 "Universal build"
      (by decide),
   (hasSpecifiedPlatforms_spec ["windows x64"] true).1,
   ((hasSpecifiedPlatforms_spec ["windows x64"] false).2.2
      "for Windows x64 only" (by decide)).2⟩

/-- Every task produced from start index `i` carries a position at least
`i`. -/
theorem computePlatformTaskListAux_le (wl : List String) :
    ∀ (entries : List (Option String)) (i : Nat)
      (task : PlatformTask),
      task ∈ computePlatformTaskListAux wl i entries →
        i ≤ task.selectorIdx := by
  intro entries
  induction entries with
  | nil => intro i task h; simp [computePlatformTaskListAux] at h
  | cons e rest ih =>
    intro i task h
    cases e with
    | none =>
      simp only [computePlatformTaskListAux, Option.map_none'] at h
      exact Nat.le_of_succ_le (ih (i + 1) task h)
    | some s =>
      simp only [computePlatformTaskListAux, Option.map_some'] at h
      by_cases hc : wl.contains (jsToLower s) = true
      · rw [if_pos hc] at h
        rcases List.mem_cons.mp h with h0 | h1
        · subst h0; exact Nat.le_refl i
        · exact Nat.le_of_succ_le (ih (i + 1) task h1)
      · rw [if_neg hc] at h
        exact Nat.le_of_succ_le (ih (i + 1) task h)

/-- The tasks produced from any start index have strictly increasing
positions. -/
theorem computePlatformTaskListAux_pairwise (wl : List String) :
    ∀ (entries : List (Option String)) (i : Nat),
      List.Pairwise (fun a b => a.selectorIdx < b.selectorIdx)
        (computePlatformTaskListAux wl i entries) := by
  intro entries
  induction entries with
  | nil => intro i; simp [computePlatformTaskListAux]
  | cons e rest ih =>
    intro i
    cases e with
    | none =>
      simp only [computePlatformTaskListAux, Option.map_none']
      exact ih (i + 1)
    | some s =>
      simp only [computePlatformTaskListAux, Option.map_some']
      by_cases hc : wl.contains (jsToLower s) = true
      · rw [if_pos hc]
        refine List.Pairwise.cons ?_ (ih (i + 1))
        intro b hb
        exact Nat.lt_of_succ_le (computePlatformTaskListAux_le wl rest (i + 1) b hb)
      · rw [if_neg hc]
        exact ih (i + 1)

/-- Membership characterisation of the task list produced from start index
`i`: a task appears iff some entry offset `k` holds defined text whose
lower-casing is the task's name and an exact whitelist member, at position
`i + k`. -/
theorem computePlatformTaskListAux_mem (wl : List String) :
    ∀ (entries : List (Option String)) (i : Nat) (j : Nat) (name : String),
      PlatformTask.mk j name ∈ computePlatformTaskListAux wl i entries ↔
        ∃ k : Nat, ∃ t : String, entries[k]? = some (some t) ∧
          j = i + k ∧ name = jsToLower t ∧ name ∈ wl := by
  intro entries
  induction entries with
  | nil => intro i j name; simp [computePlatformTaskListAux]
  | cons e rest ih =>
    intro i j name
    cases e with
    | none =>
      simp only [computePlatformTaskListAux, Option.map_none']
      rw [ih]
      constructor
      · rintro ⟨k, t, hk, hidx, hname, hmem⟩
        exact ⟨k + 1, t, by simpa using hk, by omega, hname, hmem⟩
      · rintro ⟨k, t, hk, hidx, hname, hmem⟩
        cases k with
        | zero => simp at hk
        | succ k' => exact ⟨k', t, by simpa using hk, by omega, hname, hmem⟩
    | some s =>
      simp only [computePlatformTaskListAux, Option.map_some']
      by_cases hc : wl.contains (jsToLower s) = true
      · rw [if_pos hc]
        rw [List.mem_cons, ih]
        constructor
        · rintro (heq | ⟨k, t, hk, hidx, hname, hmem⟩)
          · injection heq with h1 h2
            subst h1; subst h2
            exact ⟨0, s, by simp, by omega, rfl, by simpa using hc⟩
          · exact ⟨k + 1, t, by simpa using hk, by omega, hname, hmem⟩
        · rintro ⟨k, t, hk, hidx, hname, hmem⟩
          cases k with
          | zero =>
            left
            simp only [List.getElem?_cons_zero, Option.some.injEq] at hk
            rw [PlatformTask.mk.injEq]
            exact ⟨by omega, by rw [hname, hk]⟩
          | succ k' =>
            right
            exact ⟨k', t, by simpa using hk, by omega, hname, hmem⟩
      · rw [if_neg hc]
        rw [ih]
        constructor
        · rintro ⟨k, t, hk, hidx, hname, hmem⟩
          exact ⟨k + 1, t, by simpa using hk, by omega, hname, hmem⟩
        · rintro ⟨k, t, hk, hidx, hname, hmem⟩
          cases k with
          | zero =>
            exfalso
            apply hc
            simp only [List.getElem?_cons_zero, Option.some.injEq] at hk
            subst hk
            rw [hname] at hmem
            simpa using hmem
          | succ k' => exact ⟨k', t, by simpa using hk, by omega, hname, hmem⟩

/-- C2: the variant enumerator returns exactly the tasks `(i, name)` whose
index is within the entry count and whose lower-cased entry text is an
exact string member of the requested set (membership, not substring
containment), in strictly ascending index order — the DOM order, with no
re-sorting. -/
theorem computePlatformTaskList_spec (whitelistPlatforms : List String)
    (entries : List (Option String)) :
    (∀ (i : Nat) (name : String),
      PlatformTask.mk i name ∈
          computePlatformTaskList whitelistPlatforms entries ↔
        ∃ t : String, entries[i]? = some (some t) ∧ name = jsToLower t ∧
          name ∈ whitelistPlatforms) ∧
    List.Pairwise (fun a b => a.selectorIdx < b.selectorIdx)
      (computePlatformTaskList whitelistPlatforms entries) := by
  constructor
  · intro i name
    rw [computePlatformTaskList, computePlatformTaskListAux_mem]
    constructor
    · rintro ⟨k, t, hk, hidx, hname, hmem⟩
      have hki : k = i := by omega
      subst hki
      exact ⟨t, hk, hname, hmem⟩
    · rintro ⟨t, hk, hname, hmem⟩
      exact ⟨i, t, hk, by omega, hname, hmem⟩
  · exact computePlatformTaskListAux_pairwise _ _ 0

/-- Concrete instantiation of `computePlatformTaskList_spec`: among the
entries `Windows x64`, `Linux x64`, `macOS Intel`, requesting `linux x64`
selects exactly the task at position 1. -/
theorem computePlatformTaskList_spec_witness :
    PlatformTask.mk 1 "linux x64" ∈
      computePlatformTaskList ["linux x64"]
        [some "Windows x64", some "Linux x64", some "macOS Intel"] :=
  ((computePlatformTaskList_spec ["linux x64"]
      [some "Windows x64", some "Linux x64", some "macOS Intel"]).1
    1 "linux x64").mpr ⟨"Linux x64", by decide, by decide, by decide⟩

/-- C3: `_clickAndDl` joins the download-started event and the click — the
save step is reached exactly when both complete — and when either fails the
rejection is logged under the friendly name, rethrown, and no save is
attempted. -/
theorem clickAndDl_join_spec (dlName outputDir : String) (att : DlAttempt) :
    ((_clickAndDl dlName att outputDir).saveAttempted = true ↔
      (∃ d : Download, att.event = .ok d) ∧ att.click = .ok ()) ∧
    (∀ e : Err, att.event = .error e ∨ att.click = .error e →
      ∃ e2 : Err,
        (_clickAndDl dlName att outputDir).result = .error e2 ∧
        (_clickAndDl dlName att outputDir).logs =
          ["Failed on downloading " ++ dlName] ∧
        (_clickAndDl dlName att outputDir).saveAttempted = false ∧
        (_clickAndDl dlName att outputDir).saved = []) := by
  obtain ⟨ev, ck⟩ := att
  constructor
  · cases ev with
    | error e => simp [_clickAndDl, promiseAll2]
    | ok d =>
      cases ck with
      | error e => simp [_clickAndDl, promiseAll2]
      | ok u =>
        cases u
        cases hs : d.saveResult with
        | error e => simp [_clickAndDl, promiseAll2, hs]
        | ok u2 => cases u2; simp [_clickAndDl, promiseAll2, hs]
  · intro e he
    cases ev with
    | error e1 => exact ⟨e1, by simp [_clickAndDl, promiseAll2]⟩
    | ok d =>
      cases ck with
      | error e1 => exact ⟨e1, by simp [_clickAndDl, promiseAll2]⟩
      | ok u => simp at he

/-- Concrete instantiation of `clickAndDl_join_spec`: a timed-out download
event yields a logged, rethrown error and no save. -/
theorem clickAndDl_join_spec_witness :
    ∃ e2 : Err,
      (_clickAndDl "-" ⟨.error .timeout, .ok ()⟩ "out").result = .error e2 ∧
      (_clickAndDl "-" ⟨.error .timeout, .ok ()⟩ "out").logs =
        ["Failed on downloading -"] ∧
      (_clickAndDl "-" ⟨.error .timeout, .ok ()⟩ "out").saveAttempted
          = false ∧
      (_clickAndDl "-" ⟨.error .timeout, .ok ()⟩ "out").saved = [] :=
  (clickAndDl_join_spec "-" "out" ⟨.error .timeout, .ok ()⟩).2
    .timeout (Or.inl rfl)

/-- C6 fails on the code: `saveAs` and `delete` are two sequential awaits
with no `finally`, so an invocation that reaches the save step and whose
save fails never executes `delete` — the handle is not released on the
failure path. -/
theorem clickAndDl_delete_counterexample :
    (_clickAndDl "-"
        ⟨.ok ⟨"ext.vsix", .error .saveErr⟩, .ok ()⟩ "out").saveAttempted
        = true ∧
    (_clickAndDl "-"
        ⟨.ok ⟨"ext.vsix", .error .saveErr⟩, .ok ()⟩ "out").deleted
        = false ∧
    (_clickAndDl "-"
        ⟨.ok ⟨"ext.vsix", .error .saveErr⟩, .ok ()⟩ "out").result
        = .error .saveErr :=
  ⟨rfl, rfl, rfl⟩

/-- C6 amended: on an invocation that reaches the save step, the handle is
released when the save succeeds; when the save fails, the error propagates
and the handle is not released. -/
theorem clickAndDl_delete_spec (dlName outputDir : String) (att : DlAttempt)
    (d : Download) (hev : att.event = .ok d) (hck : att.click = .ok ()) :
    (_clickAndDl dlName att outputDir).saveAttempted = true ∧
    (d.saveResult = .ok () →
      (_clickAndDl dlName att outputDir).deleted = true ∧
      (_clickAndDl dlName att outputDir).saved =
        [pathJoin outputDir d.suggestedFilename]) ∧
    (∀ e : Err, d.saveResult = .error e →
      (_clickAndDl dlName att outputDir).deleted = false ∧
      (_clickAndDl dlName att outputDir).result = .error e) := by
  obtain ⟨ev, ck⟩ := att
  cases hev
  cases hck
  refine ⟨?_, ?_, ?_⟩
  · cases hs : d.saveResult with
    | error e => simp [_clickAndDl, promiseAll2, hs]
    | ok u => cases u; simp [_clickAndDl, promiseAll2, hs]
  · intro hs
    simp [_clickAndDl, promiseAll2, hs]
  · intro e hs
    simp [_clickAndDl, promiseAll2, hs]

/-- Concrete instantiation of `clickAndDl_delete_spec`: a successful save
releases the handle. -/
theorem clickAndDl_delete_spec_witness :
    (_clickAndDl "single" ⟨.ok ⟨"ok.vsix", .ok ()⟩, .ok ()⟩ "dir").deleted
        = true ∧
    (_clickAndDl "single" ⟨.ok ⟨"ok.vsix", .ok ()⟩, .ok ()⟩ "dir").saved
        = [pathJoin "dir" "ok.vsix"] :=
  (clickAndDl_delete_spec "single" "dir" ⟨.ok ⟨"ok.vsix", .ok ()⟩, .ok ()⟩
    ⟨"ok.vsix", .ok ()⟩ rfl rfl).2.1 rfl

/-- C4: the orchestrator applies the ALL policy on the single-build branch
and the ANY policy on the multi-build branch; an unsatisfied check skips
the package with a warning and attempts no download, a satisfied
single-build check drives exactly one download against the primary button,
and a satisfied multi-build check proceeds to the enumeration loop. -/
theorem dlExt_policy_spec (page : PageModel) (env : Nat → DlAttempt)
    (platforms : List String) (extId outputDir : String) :
    (_hasMultiplePlatforms page.chevronCount = false →
      (_hasSpecifiedPlatforms page.capText platforms true = false →
        dlExt page env platforms extId outputDir =
          { warnings := [singleSkipMsg extId], logs := [], clicks := []
            saved := [], result := .ok () }) ∧
      (_hasSpecifiedPlatforms page.capText platforms true = true →
        (dlExt page env platforms extId outputDir).clicks =
          [ClickTarget.primary])) ∧
    (_hasMultiplePlatforms page.chevronCount = true →
      (_hasSpecifiedPlatforms page.capText platforms false = false →
        dlExt page env platforms extId outputDir =
          { warnings := [multiSkipMsg extId], logs := [], clicks := []
            saved := [], result := .ok () }) ∧
      (_hasSpecifiedPlatforms page.capText platforms false = true →
        page.dropdownOk = true →
        dlExt page env platforms extId outputDir =
          MultiPlatformRunLoop env outputDir 0
            (computePlatformTaskList platforms page.entries))) := by
  constructor
  · intro hsingle
    constructor
    · intro hunsat
      simp [dlExt, hsingle, SinglePlatformRun, hunsat]
    · intro hsat
      simp [dlExt, hsingle, SinglePlatformRun, hsat]
  · intro hmulti
    constructor
    · intro hunsat
      simp [dlExt, hmulti, MultiPlatformInitRun, hunsat]
    · intro hsat hdd
      simp [dlExt, hmulti, MultiPlatformInitRun, hsat, hdd]

/-- Concrete instantiation of `dlExt_policy_spec`: a single-build page
advertising only Linux is skipped with the warning, and no click happens,
when Windows is requested under the ALL policy. -/
theorem dlExt_policy_spec_witness :
    dlExt ⟨0, some "Linux x64", [], true⟩
        (fun _ => ⟨.error .timeout, .ok ()⟩) ["windows x64"]
        "pub.ext" "out" =
      { warnings := [singleSkipMsg "pub.ext"], logs := [], clicks := []
        saved := [], result := .ok () } :=
  ((dlExt_policy_spec ⟨0, some "Linux x64", [], true⟩
      (fun _ => ⟨.error .timeout, .ok ()⟩) ["windows x64"]
      "pub.ext" "out").1 rfl).1 (by decide)

/-- C5 fails on the code: a multi-build page passing the ANY capability
check but producing an empty task list finishes silently — no download
click, nothing saved, but also no warning is logged (the skip warning
exists only for the failed capability check in `MultiPlatform.init`). -/
theorem multi_empty_warning_counterexample :
    computePlatformTaskList ["windows x64"] ([] : List (Option String))
        = [] ∧
    (dlExt ⟨1, some "universal", [], true⟩
        (fun _ => ⟨.error .timeout, .ok ()⟩) ["windows x64"]
        "pub.ext" "out").warnings = [] ∧
    (dlExt ⟨1, some "universal", [], true⟩
        (fun _ => ⟨.error .timeout, .ok ()⟩) ["windows x64"]
        "pub.ext" "out").clicks = [] ∧
    (dlExt ⟨1, some "universal", [], true⟩
        (fun _ => ⟨.error .timeout, .ok ()⟩) ["windows x64"]
        "pub.ext" "out").saved = [] :=
  ⟨rfl, rfl, rfl, rfl⟩

/-- C5 amended: a multi-build package whose enumeration produces zero
matching variant tasks completes with no download click, zero saved files
and a successful outcome, but silently — no warning is logged for the
empty enumeration. -/
theorem multi_empty_tasklist_spec (page : PageModel) (env : Nat → DlAttempt)
    (platforms : List String) (extId outputDir : String)
    (hmulti : _hasMultiplePlatforms page.chevronCount = true)
    (hsat : _hasSpecifiedPlatforms page.capText platforms false = true)
    (hdd : page.dropdownOk = true)
    (hempty : computePlatformTaskList platforms page.entries = []) :
    (dlExt page env platforms extId outputDir).clicks = [] ∧
    (dlExt page env platforms extId outputDir).saved = [] ∧
    (dlExt page env platforms extId outputDir).warnings = [] ∧
    (dlExt page env platforms extId outputDir).result = .ok () := by
  simp [dlExt, hmulti, MultiPlatformInitRun, hsat, hdd, hempty,
    MultiPlatformRunLoop]

/-- Concrete instantiation of `multi_empty_tasklist_spec`: a multi-build
page whose only entry is Linux, under a Windows request satisfied by the
capability text, downloads nothing and stays silent. -/
theorem multi_empty_tasklist_spec_witness :
    (dlExt ⟨1, some "Windows x64 and more", [some "Linux x64"], true⟩
        (fun _ => ⟨.error .timeout, .ok ()⟩) ["windows x64"]
        "pub.ext" "out").clicks = [] ∧
    (dlExt ⟨1, some "Windows x64 and more", [some "Linux x64"], true⟩
        (fun _ => ⟨.error .timeout, .ok ()⟩) ["windows x64"]
        "pub.ext" "out").saved = [] ∧
    (dlExt ⟨1, some "Windows x64 and more", [some "Linux x64"], true⟩
        (fun _ => ⟨.error .timeout, .ok ()⟩) ["windows x64"]
        "pub.ext" "out").warnings = [] ∧
    (dlExt ⟨1, some "Windows x64 and more", [some "Linux x64"], true⟩
        (fun _ => ⟨.error .timeout, .ok ()⟩) ["windows x64"]
        "pub.ext" "out").result = .ok () :=
  multi_empty_tasklist_spec ⟨1, some "Windows x64 and more",
      [some "Linux x64"], true⟩
    (fun _ => ⟨.error .timeout, .ok ()⟩) ["windows x64"] "pub.ext" "out"
    rfl (by decide) rfl (by decide)

/-- C7 fails on the code: the catch in the extension loop of
`_setupBrowserAndBegin` rethrows after logging, so a failing first package
terminates the loop and the second package is never attempted. -/
theorem setupBrowserLoop_counterexample :
    (setupBrowserLoop
        (fun extId => if extId = "a.first" then .error .timeout else .ok ())
        ["a.first", "b.second"]).attempted = ["a.first"] ∧
    "b.second" ∉ (setupBrowserLoop
        (fun extId => if extId = "a.first" then .error .timeout else .ok ())
        ["a.first", "b.second"]).attempted ∧
    (setupBrowserLoop
        (fun extId => if extId = "a.first" then .error .timeout else .ok ())
        ["a.first", "b.second"]).result = .error .timeout := by
  refine ⟨rfl, ?_, rfl⟩
  intro hmem
  rw [show (setupBrowserLoop
      (fun extId => if extId = "a.first" then .error .timeout else .ok ())
      ["a.first", "b.second"]).attempted = ["a.first"] from rfl] at hmem
  simp at hmem

/-- C7 amended: a download error aborts the failing package, logs its
identifier, and is rethrown, terminating the whole run — packages after the
failing one are not attempted. -/
theorem setupBrowserLoop_halts_spec (res : String → Except Err Unit)
    (pre post : List String) (extId : String) (e : Err)
    (hpre : ∀ x ∈ pre, res x = .ok ())
    (hfail : res extId = .error e) :
    setupBrowserLoop res (pre ++ extId :: post) =
      { attempted := pre ++ [extId], logs := ["\nError on " ++ extId]
        result := .error e } := by
  induction pre with
  | nil => simp [setupBrowserLoop, hfail]
  | cons x xs ih =>
    have hx : res x = .ok () := hpre x (by simp)
    simp only [List.cons_append, setupBrowserLoop, hx, List.append_eq]
    rw [ih fun y hy => hpre y (by simp [hy])]

/-- Concrete instantiation of `setupBrowserLoop_halts_spec`: with a healthy
first package and a failing second one, the third is never attempted and
the error propagates. -/
theorem setupBrowserLoop_halts_spec_witness :
    setupBrowserLoop
        (fun extId => if extId = "bad.ext" then .error .timeout else .ok ())
        (["ok.ext"] ++ "bad.ext" :: ["never.ext"]) =
      { attempted := ["ok.ext"] ++ ["bad.ext"]
        logs := ["\nError on " ++ "bad.ext"]
        result := .error .timeout } :=
  setupBrowserLoop_halts_spec
    (fun extId => if extId = "bad.ext" then .error .timeout else .ok ())
    ["ok.ext"] ["never.ext"] "bad.ext" .timeout
    (by intro x hx; simp at hx; subst hx; rfl) rfl

/-- C8 fails on the code: `_parseCmdArgs` maps each chosen platform code
through the `PLATFORMS` table to its display name before lower-casing, so
the set consumed downstream holds `windows x64`, not the code
`win32-x64`. -/
theorem parseCmdArgsPlatform_counterexample :
    _parseCmdArgsPlatform ["win32-x64"] = ["windows x64"] ∧
    "win32-x64" ∉ _parseCmdArgsPlatform ["win32-x64"] := by
  refine ⟨rfl, ?_⟩
  intro hmem
  rw [show _parseCmdArgsPlatform ["win32-x64"] = ["windows x64"]
      from rfl] at hmem
  simp at hmem

/-- Length preservation of the platform post-processing under the yargs
`choices` constraint: every valid code contributes exactly one name. -/
theorem parseCmdArgsPlatform_length (codes : List String)
    (hvalid : ∀ c ∈ codes, (PLATFORMS.lookup c).isSome = true) :
    (_parseCmdArgsPlatform codes).length = codes.length := by
  induction codes with
  | nil => rfl
  | cons c cs ih =>
    have hc : (PLATFORMS.lookup c).isSome = true := hvalid c (by simp)
    obtain ⟨dn, hdn⟩ := Option.isSome_iff_exists.mp hc
    simp only [_parseCmdArgsPlatform, List.filterMap_cons, hdn,
      Option.map_some', List.length_cons]
    rw [show List.filterMap
        (fun c => (PLATFORMS.lookup c).map jsToLower) cs =
        _parseCmdArgsPlatform cs from rfl]
    rw [ih fun y hy => hvalid y (by simp [hy])]

/-- C8 amended: every PlatformSet consumed by the capability probe and the
variant enumerator is a non-empty sequence of lower-cased platform display
names (such as `windows x64`), one per chosen code in order, obtained from
the `PLATFORMS` table; these names are what the probe matches against the
lower-cased page text. -/
theorem parseCmdArgsPlatform_spec (codes : List String)
    (hne : codes ≠ [])
    (hvalid : ∀ c ∈ codes, (PLATFORMS.lookup c).isSome = true) :
    (_parseCmdArgsPlatform codes).length = codes.length ∧
    _parseCmdArgsPlatform codes ≠ [] ∧
    (∀ s ∈ _parseCmdArgsPlatform codes,
      ∃ c ∈ codes, ∃ dn : String,
        PLATFORMS.lookup c = some dn ∧ s = jsToLower dn) ∧
    (∀ t : String, ∀ m : Bool,
      _hasSpecifiedPlatforms (some t) (_parseCmdArgsPlatform codes) m =
        hasSpecifiedPlatformsLower (jsToLower t)
          (_parseCmdArgsPlatform codes) m) := by
  have hlen := parseCmdArgsPlatform_length codes hvalid
  refine ⟨hlen, ?_, ?_, ?_⟩
  · intro hnil
    apply hne
    rw [hnil] at hlen
    exact List.length_eq_zero.mp hlen.symm
  · intro s hs
    obtain ⟨c, hc, hmap⟩ := List.mem_filterMap.mp hs
    obtain ⟨dn, hdn, hlow⟩ := Option.map_eq_some'.mp hmap
    exact ⟨c, hc, dn, hdn, hlow.symm⟩
  · intro t m
    rfl

/-- Concrete instantiation of `parseCmdArgsPlatform_spec`: the codes
`win32-x64` and `web` become the non-empty lower-cased display-name list
`windows x64`, `web`. -/
theorem parseCmdArgsPlatform_spec_witness :
    (_parseCmdArgsPlatform ["win32-x64", "web"]).length
        = (["win32-x64", "web"] : List String).length ∧
    _parseCmdArgsPlatform ["win32-x64", "web"] ≠ [] :=
  ⟨(parseCmdArgsPlatform_spec ["win32-x64", "web"] (by decide)
      (by decide)).1,
   (parseCmdArgsPlatform_spec ["win32-x64", "web"] (by decide)
      (by decide)).2.1⟩

/-- Concrete instantiation of `hasMultiplePlatforms_iff_count_one`: one
chevron means multi-build. -/
theorem hasMultiplePlatforms_iff_count_one_witness :
    _hasMultiplePlatforms 1 = true :=
  (hasMultiplePlatforms_iff_count_one 1).mpr rfl

/-- The clicks of the multi-platform download loop are a prefix of the task
positions in task-list order: a failing download truncates the loop and
nothing is re-clicked. -/
theorem MultiPlatformRunLoop_clicks_isPrefix (env : Nat → DlAttempt)
    (outputDir : String) :
    ∀ (tasks : List PlatformTask) (k : Nat),
      List.IsPrefix (MultiPlatformRunLoop env outputDir k tasks).clicks
        (tasks.map fun task => ClickTarget.variant task.selectorIdx) := by
  intro tasks
  induction tasks with
  | nil => intro k; exact ⟨[], rfl⟩
  | cons task rest ih =>
    intro k
    cases h : (_clickAndDl task.extName (env k) outputDir).result with
    | error e =>
      simp only [MultiPlatformRunLoop, h, List.map_cons]
      exact ⟨List.map (fun r : PlatformTask => ClickTarget.variant r.selectorIdx)
        rest, rfl⟩
    | ok u =>
      cases u
      simp only [MultiPlatformRunLoop, h, List.map_cons]
      exact List.cons_prefix_cons.mpr ⟨rfl, ih (k + 1)⟩

/-- The task positions, mapped to click targets, are pairwise distinct. -/
theorem taskClickTargets_nodup (platforms : List String)
    (entries : List (Option String)) :
    ((computePlatformTaskList platforms entries).map
      fun task => ClickTarget.variant task.selectorIdx).Nodup := by
  refine List.Pairwise.map _ ?_
    (computePlatformTaskListAux_pairwise platforms entries 0)
  intro a b hab heq
  injection heq with h1
  omega

/-- C10: every task list has strictly increasing positions, each within the
entry count and pointing at an entry with defined text; an entry whose text
is undefined is excluded (the enumerator is total, raising no error); and
consequently each dropdown position is clicked at most once per package
run. -/
theorem taskList_invariants (page : PageModel) (env : Nat → DlAttempt)
    (platforms : List String) (extId outputDir : String) :
    List.Pairwise (fun a b => a.selectorIdx < b.selectorIdx)
      (computePlatformTaskList platforms page.entries) ∧
    (∀ task ∈ computePlatformTaskList platforms page.entries,
      task.selectorIdx < page.entries.length ∧
      ∃ t : String, page.entries[task.selectorIdx]? = some (some t) ∧
        task.extName = jsToLower t) ∧
    (∀ i : Nat, page.entries[i]? = some none →
      ∀ task ∈ computePlatformTaskList platforms page.entries,
        task.selectorIdx ≠ i) ∧
    (∀ target : ClickTarget,
      (dlExt page env platforms extId outputDir).clicks.count target
        ≤ 1) := by
  have hmem : ∀ task ∈ computePlatformTaskList platforms page.entries,
      task.selectorIdx < page.entries.length ∧
      ∃ t : String, page.entries[task.selectorIdx]? = some (some t) ∧
        task.extName = jsToLower t := by
    intro task htask
    obtain ⟨j, name⟩ := task
    obtain ⟨k, t, hk, hidx, hname, -⟩ :=
      (computePlatformTaskListAux_mem platforms page.entries 0 j name).mp
        htask
    have hkj : j = k := by omega
    subst hkj
    refine ⟨?_, t, hk, hname⟩
    by_contra hge
    push_neg at hge
    rw [List.getElem?_eq_none hge] at hk
    cases hk
  refine ⟨computePlatformTaskListAux_pairwise platforms page.entries 0,
    hmem, ?_, ?_⟩
  · intro i hi task htask hidx
    obtain ⟨-, t, hk, -⟩ := hmem task htask
    rw [hidx, hi] at hk
    cases hk
  · intro target
    by_cases hm : _hasMultiplePlatforms page.chevronCount = true
    · by_cases hs :
          _hasSpecifiedPlatforms page.capText platforms false = true
      · by_cases hdd : page.dropdownOk = true
        · have hpre := MultiPlatformRunLoop_clicks_isPrefix env outputDir
            (computePlatformTaskList platforms page.entries) 0
          have hcount := List.Sublist.count_le hpre.sublist target
          have hone := List.nodup_iff_count_le_one.mp
            (taskClickTargets_nodup platforms page.entries) target
          have hclicks : (dlExt page env platforms extId outputDir).clicks
              = (MultiPlatformRunLoop env outputDir 0
                  (computePlatformTaskList platforms page.entries)).clicks := by
            simp [dlExt, hm, MultiPlatformInitRun, hs, hdd]
          rw [hclicks]
          exact le_trans hcount hone
        · have hclicks : (dlExt page env platforms extId outputDir).clicks
              = [] := by
            simp [dlExt, hm, MultiPlatformInitRun, hs, hdd]
          rw [hclicks]
          simp
      · have hclicks : (dlExt page env platforms extId outputDir).clicks
            = [] := by
          simp [dlExt, hm, MultiPlatformInitRun, hs]
        rw [hclicks]
        simp
    · by_cases hs :
          _hasSpecifiedPlatforms page.capText platforms true = true
      · have hclicks : (dlExt page env platforms extId outputDir).clicks
            = [ClickTarget.primary] := by
          simp [dlExt, hm, SinglePlatformRun, hs]
        rw [hclicks]
        exact le_trans (List.count_le_length target [ClickTarget.primary])
          (by simp)
      · have hclicks : (dlExt page env platforms extId outputDir).clicks
            = [] := by
          simp [dlExt, hm, SinglePlatformRun, hs]
        rw [hclicks]
        simp

/-- Concrete instantiation of `taskList_invariants`: on a one-entry
multi-build page, position 0 is clicked at most once. -/
theorem taskList_invariants_witness :
    (dlExt ⟨1, some "universal", [some "Windows x64"], true⟩
        (fun _ => ⟨.ok ⟨"w.vsix", .ok ()⟩, .ok ()⟩) ["windows x64"]
        "pub.ext" "out").clicks.count (ClickTarget.variant 0) ≤ 1 :=
  (taskList_invariants ⟨1, some "universal", [some "Windows x64"], true⟩
      (fun _ => ⟨.ok ⟨"w.vsix", .ok ()⟩, .ok ()⟩) ["windows x64"]
      "pub.ext" "out").2.2.2 (ClickTarget.variant 0)

end VsixDl
